import Mathlib

/-!
Verification of the supervisor-tag-scan core against its specification.

The Python source is shallowly embedded: SQLite tables become explicit
functional states, opaque JSON/blob payloads become `Option String`,
floats become rationals, and the scan route becomes a pure function over
an environment describing the outcomes of its external collaborators
(path resolution, hashing, corruption check, model predictions).
-/

namespace SupervisorTagScan

/-! ## Capability flags (src/core/bitmask.py) -/

def FLAG_BASIC : Nat := 1
def FLAG_NSFW : Nat := 2
def FLAG_TAGS : Nat := 4
def FLAG_FACE : Nat := 8
def FLAG_VECTOR : Nat := 16

/-- The `_MODULE_FLAG_MAP` table of src/core/bitmask.py. -/
def moduleFlagMap : List (String × Nat) :=
  [("basic", FLAG_BASIC), ("statistics", FLAG_BASIC), ("nsfw", FLAG_NSFW),
   ("tags", FLAG_TAGS), ("face", FLAG_FACE), ("vector", FLAG_VECTOR)]

/-- Whitespace-stripping on a character list, both ends (Python `str.strip()`). -/
def stripChars (l : List Char) : List Char :=
  ((l.dropWhile Char.isWhitespace).reverse.dropWhile Char.isWhitespace).reverse

/-- `module.strip().lower()` from `map_modules_to_flags`, modelled with
structural list operations so it evaluates in the kernel. -/
def normalizeModule (m : String) : String :=
  ⟨(stripChars m.data).map Char.toLower⟩

/-- `_MODULE_FLAG_MAP.get(normalized, 0)`. -/
def moduleFlagOf (m : String) : Nat :=
  (moduleFlagMap.lookup (normalizeModule m)).getD 0

/-- `map_modules_to_flags` from src/core/bitmask.py: OR together the flag of
each normalized module name, defaulting to `FLAG_BASIC` for an empty list or
when no name is recognized (`flags or FLAG_BASIC`). -/
def map_modules_to_flags (modules : List String) : Nat :=
  if modules = [] then FLAG_BASIC
  else
    let flags := modules.foldl (fun acc m => acc ||| moduleFlagOf m) 0
    if flags = 0 then FLAG_BASIC else flags

/-! ## The files table (src/core/database.py)

The `files` table has `hash` as its primary key, so the stored state is a
partial map from hash to row. JSON and blob payloads are opaque strings,
`nsfw_score` is a rational, and `last_scanned` is an abstract timestamp. -/

structure FileRow where
  path : String
  flags_done : Nat
  meta_json : Option String
  nsfw_score : Option ℚ
  face_bbox_json : Option String
  vector_blob : Option String
  last_scanned : Nat
deriving DecidableEq, Repr

def FilesState : Type := String → Option FileRow

def emptyFiles : FilesState := fun _ => none

/-- Argument bundle of one `ScannerDB.upsert_scan_result` call; `now` stands
for the `datetime.now` timestamp taken inside the call. -/
structure UpsertArgs where
  file_hash : String
  path : String
  flags_done : Nat
  meta : Option String
  nsfw_score : Option ℚ
  face_bbox : Option String
  vector_blob : Option String
  now : Nat
deriving DecidableEq, Repr

/-- `ScannerDB.upsert_scan_result`: first `DELETE FROM files WHERE path = ?
AND hash != ?`, then `INSERT ... ON CONFLICT(hash) DO UPDATE SET` with
`flags_done = files.flags_done | excluded.flags_done` and
`COALESCE(excluded.field, files.field)` for the optional payload fields. -/
def upsert_scan_result (u : UpsertArgs) (s : FilesState) : FilesState :=
  fun h =>
    if h = u.file_hash then
      match s u.file_hash with
      | some r =>
          some { path := u.path
                 flags_done := r.flags_done ||| u.flags_done
                 meta_json := u.meta <|> r.meta_json
                 nsfw_score := u.nsfw_score <|> r.nsfw_score
                 face_bbox_json := u.face_bbox <|> r.face_bbox_json
                 vector_blob := u.vector_blob <|> r.vector_blob
                 last_scanned := u.now }
      | none =>
          some { path := u.path, flags_done := u.flags_done, meta_json := u.meta
                 nsfw_score := u.nsfw_score, face_bbox_json := u.face_bbox
                 vector_blob := u.vector_blob, last_scanned := u.now }
    else
      match s h with
      | some r => if r.path = u.path then none else some r
      | none => none

/-- `ScannerDB.update_file_flags`: `UPDATE files SET flags_done = flags_done | ?
WHERE hash = ?` (a no-op when no row has that hash). -/
def update_file_flags (file_hash : String) (new_flags : Nat) (s : FilesState) : FilesState :=
  fun h =>
    if h = file_hash then
      (s h).map (fun r => { r with flags_done := r.flags_done ||| new_flags })
    else s h

/-- `ScannerDB.get_file_state`: the stored `flags_done` for a hash, if any. -/
def flagsDone (s : FilesState) (h : String) : Option Nat :=
  (s h).map FileRow.flags_done

def applyUpserts (us : List UpsertArgs) (s : FilesState) : FilesState :=
  us.foldl (fun st u => upsert_scan_result u st) s

/-- Bitwise OR of the `flags_done` arguments of a list of upsert calls. -/
def orFlags (us : List UpsertArgs) : Nat :=
  us.foldr (fun u a => u.flags_done ||| a) 0

/-- Concrete inputs exhibiting the path-purge interaction of C1: a second
fingerprint claiming the same path deletes the first fingerprint's row. -/
def c1writeA : UpsertArgs :=
  { file_hash := "h1", path := "p", flags_done := 1, meta := none, nsfw_score := none
    face_bbox := none, vector_blob := none, now := 0 }

def c1writeB : UpsertArgs :=
  { file_hash := "h2", path := "p", flags_done := 2, meta := none, nsfw_score := none
    face_bbox := none, vector_blob := none, now := 1 }

/-- Concrete conflicting upserts for C3: both set `nsfw_score`, to different
values, so the merge order is observable. -/
def c3writeA : UpsertArgs :=
  { file_hash := "h1", path := "p", flags_done := 2, meta := none, nsfw_score := some (mkRat 3 10)
    face_bbox := none, vector_blob := none, now := 5 }

def c3writeB : UpsertArgs :=
  { file_hash := "h1", path := "p", flags_done := 2, meta := none, nsfw_score := some (mkRat 7 10)
    face_bbox := none, vector_blob := none, now := 5 }

/-! ## The tags and file_tags tables (src/core/database.py) -/

/-- `dict.fromkeys(xs)`: deduplicate keeping the first appearance of each key. -/
def dedupFirst {α : Type} [DecidableEq α] (l : List α) : List α :=
  l.foldl (fun acc t => if t ∈ acc then acc else acc ++ [t]) []

structure TagRow where
  id : Nat
  name : String
  global_count : Nat
  is_character : Bool
deriving DecidableEq, Repr

structure TagsState where
  tags : List TagRow
  file_tags : List (String × Nat)
deriving DecidableEq, Repr

def emptyTags : TagsState := ⟨[], []⟩

/-- `SELECT id FROM tags WHERE name = ?` (name is UNIQUE). -/
def findTag (ts : TagsState) (name : String) : Option TagRow :=
  ts.tags.find? (fun r => r.name == name)

/-- The INTEGER PRIMARY KEY assigned by the engine to a fresh tags row. -/
def nextTagId (ts : TagsState) : Nat :=
  (ts.tags.foldr (fun r m => max r.id m) 0) + 1

/-- `INSERT OR IGNORE INTO tags (name, global_count, is_character)`: an
existing row with the same name is left untouched. -/
def insertTagIgnore (ts : TagsState) (name : String) (isChar : Bool) : TagsState :=
  match findTag ts name with
  | some _ => ts
  | none =>
      { ts with tags := ts.tags ++
          [{ id := nextTagId ts, name := name, global_count := 0, is_character := isChar }] }

/-- `ScannerDB.save_tags`: deduplicate the general list (`dict.fromkeys`) and
drop empty strings; the character list is consulted only as a set for the
`is_character` value at first insertion. All prior `file_tags` rows for the
hash are deleted, then one association row is appended per tag of the
deduplicated general list — the character list itself is never iterated. -/
def save_tags (file_hash : String) (tags_list : List String)
    (character_tags_list : List String) (ts : TagsState) : TagsState :=
  let tags := (dedupFirst tags_list).filter (fun t => t ≠ "")
  let characterTags := character_tags_list.filter (fun t => t ≠ "")
  let ts0 : TagsState := { ts with file_tags := ts.file_tags.filter (fun p => p.1 ≠ file_hash) }
  tags.foldl (fun st tag =>
    let st1 := insertTagIgnore st tag (characterTags.contains tag)
    match findTag st1 tag with
    | some row => { st1 with file_tags := st1.file_tags ++ [(file_hash, row.id)] }
    | none => st1) ts0

/-- `ScannerDB.get_tags_for_hash`: join the `file_tags` rows of the hash with
the `tags` table and split the names by the `is_character` flag. -/
def get_tags_for_hash (file_hash : String) (ts : TagsState) : List String × List String :=
  let rows := (ts.file_tags.filter (fun p => p.1 = file_hash)).filterMap
    (fun p => ts.tags.find? (fun r => r.id == p.2))
  ((rows.filter (fun r => !r.is_character)).map TagRow.name,
   (rows.filter (fun r => r.is_character)).map TagRow.name)

/-! ## Tag trends (src/core/database.py, get_weighted_tag_trends) -/

structure TrendRow where
  date : Nat
  tag_id : Nat
  day_count : Nat
deriving DecidableEq, Repr

/-- The CASE expression of the trend query. Dates are modelled as day
numbers, so `date >= date('now','-1 day')` becomes `today ≤ date + 1` and
`date >= date('now','-7 day')` becomes `today ≤ date + 7`. -/
def trendWeight (today : Nat) (r : TrendRow) : Nat :=
  if today ≤ r.date + 1 then 3 * r.day_count
  else if today ≤ r.date + 7 then r.day_count
  else 0

/-- The grouped, joined, HAVING-filtered rows of the trend query (everything
before ORDER BY / LIMIT): filter to the last 7 days, group by tag id in
ascending order, sum the CASE weights, join the tag name, keep positive sums. -/
def weightedGroups (tagsTable : List (Nat × String)) (trend : List TrendRow)
    (today : Nat) : List (String × Nat) :=
  let rows7 := trend.filter (fun r => today ≤ r.date + 7)
  let ids := List.insertionSort (· ≤ ·) (dedupFirst (rows7.map TrendRow.tag_id))
  ids.filterMap (fun i =>
    match tagsTable.lookup i with
    | none => none
    | some name =>
      let w := ((rows7.filter (fun r => r.tag_id == i)).map (trendWeight today)).sum
      if 0 < w then some (name, w) else none)

/-- The ORDER BY key of the query: weighted count descending. The SQL has no
secondary sort key, so equal counts stay in grouping order; a stable
insertion sort models that. -/
def weightGE (a b : String × Nat) : Prop := b.2 ≤ a.2

instance : DecidableRel weightGE := fun a b => Nat.decLe b.2 a.2

instance : IsTotal (String × Nat) weightGE := ⟨fun a b => Nat.le_total b.2 a.2⟩

instance : IsTrans (String × Nat) weightGE := ⟨fun _ _ _ h1 h2 => Nat.le_trans h2 h1⟩

/-- `ScannerDB.get_weighted_tag_trends`: the grouped rows sorted by weighted
count descending (stable, no secondary key in the SQL), truncated to `limit`. -/
def get_weighted_tag_trends (tagsTable : List (Nat × String)) (trend : List TrendRow)
    (today : Nat) (lim : Nat) : List (String × Nat) :=
  (List.insertionSort weightGE (weightedGroups tagsTable trend today)).take lim

/-- Structural lexicographic comparison of character lists (string order,
kernel-evaluable). -/
def lexLe : List Char → List Char → Bool
  | [], _ => true
  | _ :: _, [] => false
  | a :: as, b :: bs => if a < b then true else if b < a then false else lexLe as bs

/-- Ordering following the claim's words: descending by score with ties
broken by tag name. -/
def nameTieOrder (a b : String × Nat) : Prop :=
  b.2 < a.2 ∨ (a.2 = b.2 ∧ lexLe a.1.data b.1.data = true)

instance : DecidableRel nameTieOrder := fun _ _ => inferInstanceAs (Decidable (_ ∨ _))

/-- Modelled from the claim's words, for comparison with the source query:
identical scoring, but the final ordering breaks equal scores by tag name. -/
def weightedTrendingNameTie (tagsTable : List (Nat × String)) (trend : List TrendRow)
    (today : Nat) (lim : Nat) : List (String × Nat) :=
  (List.insertionSort nameTieOrder (weightedGroups tagsTable trend today)).take lim

/-- Concrete trend inputs for the C4 tie-break counterexample: two tags with
equal weighted count where id order and name order disagree. -/
def c4tags : List (Nat × String) := [(1, "zebra"), (2, "apple")]

def c4trend : List TrendRow := [⟨100, 1, 1⟩, ⟨100, 2, 1⟩]

/-! ## The scan route (src/routers/legacy_api.py, scan_image)

The route is embedded as a pure function over an environment recording the
outcomes of its collaborators (path resolution, content hashing, the stored
record, the corruption check, admission, and the five capability calls).
Which side effects ran is reported in a `ScanEvents` record next to the
response. `predict_nsfw` and `predict_tags` catch their own exceptions inside
the model manager and return defaults; `predict_face_bboxes` and
`predict_clip_embedding` have no catch around the model call, so their
failure propagates out of the route. -/

/-- Python `a & ~b` for bitmasks, complement-free on naturals. -/
def andNot (a b : Nat) : Nat := a &&& (a ^^^ b)

/-- The view returned by `ScannerDB.get_file_record` (including the joined
tag lists). -/
structure FileRecordView where
  flags_done : Nat
  meta_json : Option String
  nsfw_score : Option ℚ
  tags : List String
  characters : List String
deriving DecidableEq, Repr

structure ScanEnv where
  tokenValid : Bool
  resolved : Option String
  hashResult : Option String
  record : Option FileRecordView
  corrupt : Bool
  canRun : Bool
  basicMeta : Except Unit String
  nsfwPred : Except Unit ℚ
  tagsPred : Except Unit (List String × List String)
  facePred : Except Unit String
  vectorPred : Except Unit (Option String)
deriving Repr

/-- The response dict of `scan_image`; `statistics` holds the metadata
payload, `none` standing for the empty dict the route substitutes. -/
structure ScanResult where
  file_path : String
  error : Option String
  statistics : Option String
  nsfw_score : ℚ
  tags : List String
deriving DecidableEq, Repr

/-- Which side effects a `scan_image` call performed. -/
structure ScanEvents where
  corruptChecked : Bool
  admissionChecked : Bool
  modelsLoaded : Bool
  capsRun : List Nat
  persisted : Bool
  tagsSaved : Bool
deriving DecidableEq, Repr

inductive ScanOutcome where
  | unauthorized
  | response (r : ScanResult) (ev : ScanEvents)
  | raised (capability : String)
deriving DecidableEq, Repr

def noEvents : ScanEvents :=
  { corruptChecked := false, admissionChecked := false, modelsLoaded := false
    capsRun := [], persisted := false, tagsSaved := false }

/-- `ModelManager.predict_nsfw`: catches its own exceptions, returning 0.0. -/
def predict_nsfw (e : Except Unit ℚ) : ℚ :=
  match e with
  | .ok q => q
  | .error _ => 0

/-- `ModelManager.predict_tags`: catches its own exceptions, returning empty
tag lists. -/
def predict_tags (e : Except Unit (List String × List String)) : List String × List String :=
  match e with
  | .ok t => t
  | .error _ => ([], [])

/-- The capability bits of `flags` in the route's dispatch order
(basic, nsfw, tags, face, vector). -/
def capsOf (flags : Nat) : List Nat :=
  [FLAG_BASIC, FLAG_NSFW, FLAG_TAGS, FLAG_FACE, FLAG_VECTOR].filter (fun f => flags &&& f ≠ 0)

/-- The `"Failed to read file"` response shape of the route. -/
def failedReadResult (p : String) : ScanResult :=
  { file_path := p, error := some ("Failed to read file"), statistics := none
    nsfw_score := 0, tags := [] }

/-- `needed_now = flags & ~flags_done` as computed by the route. -/
def neededNow (env : ScanEnv) (modules : List String) : Nat :=
  andNot (map_modules_to_flags modules) ((env.record.map FileRecordView.flags_done).getD 0)

/-- `scan_image` from src/routers/legacy_api.py: token check, path
resolution, hashing, smart-scan delta against the stored record, conditional
corruption validation, admission fallback, capability dispatch in flag order,
and conditional persistence. -/
def scan_image (env : ScanEnv) (filePath : String) (modules : List String) : ScanOutcome :=
  if ¬ env.tokenValid then .unauthorized
  else
    match env.resolved with
    | none => .response (failedReadResult filePath) noEvents
    | some path =>
      match env.hashResult with
      | none => .response (failedReadResult path) noEvents
      | some _ =>
        let needed0 := neededNow env modules
        let meta0 := env.record.bind FileRecordView.meta_json
        let nsfw0 := env.record.bind FileRecordView.nsfw_score
        let tags0 := (env.record.map FileRecordView.tags).getD []
        let chars0 := (env.record.map FileRecordView.characters).getD []
        if needed0 ≠ 0 ∧ env.corrupt then
          .response
            { file_path := path, error := some ("Corrupt or unreadable image")
              statistics := meta0, nsfw_score := nsfw0.getD 0, tags := tags0 ++ chars0 }
            { noEvents with corruptChecked := true }
        else
          let needed := if needed0 ≠ 0 ∧ ¬ env.canRun then 0 else needed0
          let meta1 := if needed &&& FLAG_BASIC ≠ 0 then
              (match env.basicMeta with
               | .ok m => some m
               | .error _ => meta0)
            else meta0
          let nsfw1 := if needed &&& FLAG_NSFW ≠ 0 then some (predict_nsfw env.nsfwPred) else nsfw0
          let tagsData := if needed &&& FLAG_TAGS ≠ 0 then predict_tags env.tagsPred
            else (tags0, chars0)
          match (if needed &&& FLAG_FACE ≠ 0 then env.facePred.map some
                 else Except.ok none : Except Unit (Option String)) with
          | .error _ => .raised ("face")
          | .ok _ =>
            match (if needed &&& FLAG_VECTOR ≠ 0 then env.vectorPred
                   else Except.ok none : Except Unit (Option String)) with
            | .error _ => .raised ("vector")
            | .ok _ =>
              .response
                { file_path := path, error := none, statistics := meta1
                  nsfw_score := nsfw1.getD 0, tags := tagsData.1 ++ tagsData.2 }
                { corruptChecked := decide (needed0 ≠ 0)
                  admissionChecked := decide (needed0 ≠ 0)
                  modelsLoaded := decide (needed0 ≠ 0) && env.canRun
                  capsRun := capsOf needed
                  persisted := decide (needed ≠ 0)
                  tagsSaved := decide (needed ≠ 0) &&
                    (decide (tagsData.1 ≠ []) || decide (tagsData.2 ≠ [])) }

/-- Cached record used by the C2 witness: every capability bit already done. -/
def c2rec : FileRecordView :=
  { flags_done := 31, meta_json := some ("mj"), nsfw_score := some 1
    tags := ["t1"], characters := ["c1"] }

def c2env : ScanEnv :=
  { tokenValid := true, resolved := some ("p"), hashResult := some ("sha")
    record := some c2rec, corrupt := false, canRun := true
    basicMeta := Except.ok ("m"), nsfwPred := Except.ok 0
    tagsPred := Except.ok ([], []), facePred := Except.ok ("f")
    vectorPred := Except.ok none }

/-- Environment for the C6 counterexample: the face capability is requested,
nothing is cached, and the face model call raises. -/
def c6env : ScanEnv :=
  { tokenValid := true, resolved := some ("p"), hashResult := some ("sha")
    record := none, corrupt := false, canRun := true
    basicMeta := Except.ok ("m"), nsfwPred := Except.ok 0
    tagsPred := Except.ok ([], []), facePred := Except.error ()
    vectorPred := Except.ok none }

/-- Environment for the C6 witness: basic, risk and tag capabilities all
fail, face and vector succeed. -/
def c6okEnv : ScanEnv :=
  { tokenValid := true, resolved := some ("p"), hashResult := some ("sha")
    record := none, corrupt := false, canRun := true
    basicMeta := Except.error (), nsfwPred := Except.error ()
    tagsPred := Except.error (), facePred := Except.ok ("f")
    vectorPred := Except.ok none }

/-- Environment for the C8 witness: work is needed but admission is denied. -/
def c8env : ScanEnv :=
  { tokenValid := true, resolved := some ("p"), hashResult := some ("sha")
    record := none, corrupt := false, canRun := false
    basicMeta := Except.ok ("m"), nsfwPred := Except.ok 0
    tagsPred := Except.ok ([], []), facePred := Except.ok ("f")
    vectorPred := Except.ok none }

/-! ## Engine lifecycle manager (src/core/model_manager.py)

Only the slot bookkeeping is embedded: the loaded models dictionary becomes
the list of loaded slot names, and the free-VRAM probe becomes an `Option ℚ`
argument (`none` when torch/CUDA is unavailable). -/

/-- The `required` slot set of `_unload_priority_targets`. -/
def requiredSlots (flags : Nat) : List String :=
  (if flags &&& FLAG_NSFW ≠ 0 then ["nsfw"] else []) ++
    (if flags &&& FLAG_TAGS ≠ 0 then ["tags"] else []) ++
    (if flags &&& FLAG_FACE ≠ 0 then ["face"] else []) ++
    (if flags &&& FLAG_VECTOR ≠ 0 then ["clip"] else [])

/-- The fixed eviction priority list `unload_order` of
`_unload_priority_targets`. -/
def unloadOrder : List String := ["tags", "clip", "face"]

/-- `ModelManager._unload_priority_targets`: the loaded, non-required slots
in the fixed priority order. -/
def unload_priority_targets (flags : Nat) (models : List String) : List String :=
  unloadOrder.filter (fun n => n ∈ models ∧ n ∉ requiredSlots flags)

/-- `ModelManager._unload_models`: delete every named slot, skipping "nsfw". -/
def unload_models (names : List String) (models : List String) : List String :=
  models.filter (fun m => ¬ (m ∈ names ∧ m ≠ "nsfw"))

/-- `ModelManager._ensure_vram_capacity`: with unknown headroom or at least
15% free, do nothing; under pressure, unload the priority targets. -/
def ensure_vram_capacity (freePct : Option ℚ) (flags : Nat)
    (models : List String) : List String :=
  match freePct with
  | none => models
  | some p =>
      if 15 ≤ p then models
      else unload_models (unload_priority_targets flags models) models

/-- `ModelManager.can_run_flags`: admission is denied only when headroom is
known, below 15%, and a heavy capability (tags, face, vector) is requested. -/
def can_run_flags (freePct : Option ℚ) (flags : Nat) : Bool :=
  match freePct with
  | none => true
  | some p =>
      if 15 ≤ p then true
      else if flags &&& (FLAG_TAGS ||| FLAG_FACE ||| FLAG_VECTOR) ≠ 0 then false
      else true

/-! ## The frame sampler (src/core/legacy_batch.py) -/

def GIF_STEP : Nat := 5
def VIDEO_STEP : Nat := 20

/-- Python `range(0, total, step)` for positive step. -/
def stepRange (total step : Nat) : List Nat :=
  (List.range ((total + step - 1) / step)).map (fun k => k * step)

/-- `_sample_indices`: first frame, last frame, and every step-th index,
deduplicated and sorted ascending (the `0 ≤ index < total` filter of the
source is vacuous for these constituents). -/
def sample_indices (total step : Nat) : List Nat :=
  if total = 0 then []
  else List.insertionSort (· ≤ ·) (dedupFirst ([0, total - 1] ++ stepRange total step))

/-- One extracted frame as the loop observes it: its risk (the max of the
hentai/porn/sexy fields, which `_run_nsfw` sets to the same clipped score)
and the tag labels the two taggers yield for it. -/
structure Frame where
  risk : ℚ
  tags : List String
deriving DecidableEq, Repr

structure BatchResult where
  risk : ℚ
  tags : List String
  frameCount : Nat
deriving DecidableEq, Repr

/-- Substring test over character lists (Python `sub in s`). -/
def hasSub (needle hay : List Char) : Bool :=
  match hay with
  | [] => needle.isEmpty
  | _ :: t => needle.isPrefixOf hay || hasSub needle t

/-- String order used for the deterministic sorted tag output. -/
def strLe (a b : String) : Prop := lexLe a.data b.data = true

instance : DecidableRel strLe :=
  fun a b => inferInstanceAs (Decidable (lexLe a.data b.data = true))

/-- Python `round(x, 3)`: round half to even at the third decimal place,
computed on the rational's numerator and denominator so that it evaluates in
the kernel. -/
def roundHalfEven3 (q : ℚ) : ℚ :=
  let n : Int := q.num * 1000
  let d : Int := (q.den : Int)
  let quo : Int := Int.fdiv n d
  let rem : Int := n - d * quo
  let r : Int :=
    if 2 * rem < d then quo
    else if d < 2 * rem then quo + 1
    else if quo % 2 = 0 then quo
    else quo + 1
  mkRat r 1000

/-- The sampling loop of `scan_batch`: walk the sampled indices in order,
keep the running max risk and the accumulated tag labels, and break right
after the frame that drives the running max to saturation (`>= 1.0`). Also
returns the list of indices actually processed. -/
def scanBatchLoop (frames : List Frame) :
    List Nat → ℚ → List String → List Nat → ℚ × List String × List Nat
  | [], m, acc, processed => (m, acc, processed)
  | i :: rest, m, acc, processed =>
    let f := frames.getD i { risk := 0, tags := [] }
    let m1 := max m f.risk
    let acc1 := acc ++ f.tags
    if 1 ≤ m1 then (m1, acc1, processed ++ [i])
    else scanBatchLoop frames rest m1 acc1 (processed ++ [i])

/-- `scan_batch` from src/core/legacy_batch.py, given the ordered frames the
external extractor produced and the request's mime hint. Returns the result
dict and, for stating the early exit, the sampled indices actually
processed. -/
def scan_batch (frames : List Frame) (mime : String) : BatchResult × List Nat :=
  let total := frames.length
  if total = 0 then ({ risk := 0, tags := [], frameCount := 0 }, [])
  else
    let step := if hasSub ("video").data mime.data && ! hasSub ("gif").data mime.data
      then VIDEO_STEP else GIF_STEP
    let indices := sample_indices total step
    let out := scanBatchLoop frames indices 0 [] []
    ({ risk := roundHalfEven3 out.1
       tags := (List.insertionSort strLe (dedupFirst out.2.1)).take 200
       frameCount := total }, out.2.2)

/-- Per-frame risks of the C7 example: the sampled indices 0, 5, 10, 15 carry
risks 0.1, 0.2, 1.0, 0.9 in that order. -/
def c7risk (i : Nat) : ℚ :=
  if i = 0 then mkRat 1 10
  else if i = 5 then mkRat 2 10
  else if i = 10 then 1
  else if i = 15 then mkRat 9 10
  else mkRat 3 10

def c7frames : List Frame :=
  (List.range 40).map (fun i => { risk := c7risk i, tags := [] })

/-! ## Theorems -/

theorem foldl_lor_acc (f : String → Nat) (ms : List String) (a : Nat) :
    ms.foldl (fun acc m => acc ||| f m) a = a ||| ms.foldl (fun acc m => acc ||| f m) 0 := by
  induction ms generalizing a with
  | nil => simp
  | cons m rest ih =>
    simp only [List.foldl_cons]
    rw [ih (a ||| f m), ih (0 ||| f m)]
    simp [Nat.lor_assoc]

theorem map_modules_to_flags_ne_zero (ms : List String) : map_modules_to_flags ms ≠ 0 := by
  simp only [map_modules_to_flags]
  split
  · decide
  · split
    · decide
    · assumption

theorem map_modules_to_flags_nil : map_modules_to_flags [] = FLAG_BASIC := rfl

theorem map_modules_to_flags_append_unknown (ms : List String) (m : String)
    (h : moduleFlagMap.lookup (normalizeModule m) = none) :
    map_modules_to_flags (ms ++ [m]) = map_modules_to_flags ms := by
  have hflag : moduleFlagOf m = 0 := by simp [moduleFlagOf, h]
  simp only [map_modules_to_flags]
  cases ms with
  | nil => simp [hflag]
  | cons x rest =>
    simp only [List.cons_append, List.foldl_cons, List.foldl_append, List.foldl_nil, hflag,
      Nat.or_zero]
    simp

theorem map_modules_to_flags_all_unknown (ms : List String)
    (h : ∀ m ∈ ms, moduleFlagMap.lookup (normalizeModule m) = none) :
    map_modules_to_flags ms = FLAG_BASIC := by
  have hz : ∀ a, ms.foldl (fun acc m => acc ||| moduleFlagOf m) a = a := by
    intro a
    induction ms generalizing a with
    | nil => rfl
    | cons x rest ih =>
      have hx : moduleFlagOf x = 0 := by
        simp [moduleFlagOf, h x (by simp)]
      simp only [List.foldl_cons, hx, Nat.or_zero]
      exact ih (fun m hm => h m (by simp [hm])) a
  simp only [map_modules_to_flags]
  split
  · rfl
  · simp [hz 0]

theorem map_modules_to_flags_congr_normalized (ms₁ ms₂ : List String) (m₁ m₂ : String)
    (h : normalizeModule m₁ = normalizeModule m₂) :
    map_modules_to_flags (ms₁ ++ m₁ :: ms₂) = map_modules_to_flags (ms₁ ++ m₂ :: ms₂) := by
  have hflag : moduleFlagOf m₁ = moduleFlagOf m₂ := by simp [moduleFlagOf, h]
  unfold map_modules_to_flags
  simp [List.foldl_append, hflag]

/-- C10: `map_modules_to_flags` normalizes each name by stripping surrounding
whitespace and lowercasing before lookup (the result depends only on the
normalized name), an unrecognized name contributes no capability bits, and the
result is never 0: an empty list or a list with no recognized name yields
`FLAG_BASIC = 1`. -/
theorem C10_map_modules_to_flags_spec :
    (∀ ms : List String, map_modules_to_flags ms ≠ 0) ∧
    map_modules_to_flags [] = FLAG_BASIC ∧
    (∀ ms : List String, (∀ m ∈ ms, moduleFlagMap.lookup (normalizeModule m) = none) →
      map_modules_to_flags ms = FLAG_BASIC) ∧
    (∀ ms : List String, ∀ m : String, moduleFlagMap.lookup (normalizeModule m) = none →
      map_modules_to_flags (ms ++ [m]) = map_modules_to_flags ms) ∧
    (∀ ms₁ ms₂ : List String, ∀ m₁ m₂ : String, normalizeModule m₁ = normalizeModule m₂ →
      map_modules_to_flags (ms₁ ++ m₁ :: ms₂) = map_modules_to_flags (ms₁ ++ m₂ :: ms₂)) :=
  ⟨map_modules_to_flags_ne_zero, map_modules_to_flags_nil,
   map_modules_to_flags_all_unknown, map_modules_to_flags_append_unknown,
   map_modules_to_flags_congr_normalized⟩

/-- C10 witness: evaluate the theorem's conditional parts at concrete inputs:
"bogus" is unrecognized and is silently ignored; a whitespace-and-case variant
of "nsfw" behaves exactly like "nsfw". -/
theorem C10_map_modules_to_flags_spec_witness :
    map_modules_to_flags [" NSFW ", "bogus"] = map_modules_to_flags [" NSFW "] ∧
    map_modules_to_flags ([] ++ (" NSFW ") :: []) = map_modules_to_flags ([] ++ ("nsfw") :: []) ∧
    map_modules_to_flags ["bogus"] = FLAG_BASIC :=
  ⟨C10_map_modules_to_flags_spec.2.2.2.1 [" NSFW "] ("bogus") (by decide),
   C10_map_modules_to_flags_spec.2.2.2.2 [] [] (" NSFW ") ("nsfw") (by decide),
   C10_map_modules_to_flags_spec.2.2.1 ["bogus"] (by decide)⟩

theorem lor_left_comm (a b c : Nat) : a ||| (b ||| c) = b ||| (a ||| c) := by
  rw [← Nat.lor_assoc, Nat.lor_comm a b, Nat.lor_assoc]

theorem upsert_self_flagsDone (u : UpsertArgs) (s : FilesState) :
    flagsDone (upsert_scan_result u s) u.file_hash =
      some ((flagsDone s u.file_hash).getD 0 ||| u.flags_done) := by
  unfold upsert_scan_result flagsDone
  cases hs : s u.file_hash with
  | none => simp [hs, Nat.zero_or]
  | some r => simp [hs]

theorem orFlags_cons (u : UpsertArgs) (us : List UpsertArgs) :
    orFlags (u :: us) = u.flags_done ||| orFlags us := rfl

theorem orFlags_perm {us vs : List UpsertArgs} (h : us.Perm vs) : orFlags us = orFlags vs := by
  induction h with
  | nil => rfl
  | cons x _ ih => rw [orFlags_cons, orFlags_cons, ih]
  | swap x y l =>
    rw [orFlags_cons, orFlags_cons, orFlags_cons, orFlags_cons,
      ← Nat.lor_assoc, Nat.lor_comm y.flags_done x.flags_done, Nat.lor_assoc]
  | trans _ _ ih₁ ih₂ => rw [ih₁, ih₂]

theorem applyUpserts_flagsDone (F : String) :
    ∀ (us : List UpsertArgs) (s : FilesState), us ≠ [] → (∀ u ∈ us, u.file_hash = F) →
      flagsDone (applyUpserts us s) F = some ((flagsDone s F).getD 0 ||| orFlags us) := by
  intro us
  induction us with
  | nil => intro s h; exact absurd rfl h
  | cons u rest ih =>
    intro s _ hall
    have hu : u.file_hash = F := hall u (by simp)
    have hrest : ∀ v ∈ rest, v.file_hash = F := fun v hv => hall v (by simp [hv])
    cases hr : rest with
    | nil =>
      show flagsDone (upsert_scan_result u s) F = _
      rw [← hu, upsert_self_flagsDone, orFlags_cons]
      simp [orFlags, Nat.or_zero]
    | cons v tail =>
      rw [← hr]
      show flagsDone (applyUpserts rest (upsert_scan_result u s)) F = _
      rw [ih (upsert_scan_result u s) (by simp [hr]) hrest, ← hu, upsert_self_flagsDone]
      simp only [Option.getD_some, orFlags_cons, Nat.lor_assoc]

/-- C1 counterexample: the claim that every store write only ever OR-combines
the stored bitmask and never clears it fails at a concrete input. Starting
from an empty store, `upsert_scan_result` for fingerprint "h1" at path "p"
stores bitmask 1, but a subsequent `upsert_scan_result` for a different
fingerprint "h2" at the same path "p" executes `DELETE FROM files WHERE path =
? AND hash != ?` and erases fingerprint "h1"'s row entirely, so its stored
bitmask goes from `some 1` to `none` instead of remaining OR-monotone. -/
theorem C1_counterexample :
    flagsDone (upsert_scan_result c1writeA emptyFiles) ("h1") = some 1 ∧
    flagsDone (upsert_scan_result c1writeB (upsert_scan_result c1writeA emptyFiles)) ("h1")
      = none := by
  constructor <;> decide

/-- C1 (amended): as long as no write for a different fingerprint claims the
row (the path-purge step `DELETE ... WHERE path = ? AND hash != ?` never fires
against it), the stored bitmask is OR-monotone and order-independent:
(1) `update_file_flags` only ever ORs new bits into an existing row;
(2) a single upsert for fingerprint F sets F's bitmask to `old ||| new`;
(3) any nonempty sequence of upserts for F yields exactly the initial bitmask
ORed with the OR of all written capability sets;
(4) hence the final bitmask is independent of the order of those upserts. -/
theorem C1_flags_or_monotone :
    (∀ (s : FilesState) (hsh : String) (fl : Nat) (F : String) (f0 : Nat),
        flagsDone s F = some f0 →
        ∃ f1, flagsDone (update_file_flags hsh fl s) F = some f1 ∧ f0 ||| f1 = f1) ∧
    (∀ (u : UpsertArgs) (s : FilesState),
        flagsDone (upsert_scan_result u s) u.file_hash =
          some ((flagsDone s u.file_hash).getD 0 ||| u.flags_done)) ∧
    (∀ (us : List UpsertArgs) (s : FilesState) (F : String), us ≠ [] →
        (∀ u ∈ us, u.file_hash = F) →
        flagsDone (applyUpserts us s) F = some ((flagsDone s F).getD 0 ||| orFlags us)) ∧
    (∀ (us vs : List UpsertArgs) (s : FilesState) (F : String), us.Perm vs →
        (∀ u ∈ us, u.file_hash = F) →
        flagsDone (applyUpserts us s) F = flagsDone (applyUpserts vs s) F) := by
  refine ⟨?_, upsert_self_flagsDone, fun us s F h => applyUpserts_flagsDone F us s h, ?_⟩
  · intro s hsh fl F f0 h
    obtain ⟨r, hr, hrf⟩ := Option.map_eq_some'.mp h
    by_cases hF : F = hsh
    · subst hF
      refine ⟨f0 ||| fl, ?_, by rw [← Nat.lor_assoc, Nat.or_self]⟩
      simp [update_file_flags, flagsDone, hr, hrf]
    · refine ⟨f0, ?_, Nat.or_self f0⟩
      simp [update_file_flags, flagsDone, hF, hr, hrf]
  · intro us vs s F hperm hall
    have hall₂ : ∀ u ∈ vs, u.file_hash = F := fun u hu => hall u (hperm.mem_iff.mpr hu)
    cases hus : us with
    | nil =>
      have hv : vs = [] := by
        have h₂ := hperm.symm
        rw [hus] at h₂
        exact h₂.eq_nil
      rw [hv]
    | cons u rest =>
      rw [← hus]
      have hvs : vs ≠ [] := by
        intro hv
        rw [hv] at hperm
        have h₂ := hperm.eq_nil
        rw [hus] at h₂
        cases h₂
      rw [applyUpserts_flagsDone F us s (by simp [hus]) hall,
        applyUpserts_flagsDone F vs s hvs hall₂, orFlags_perm hperm]

/-- C1 witness: the amended theorem applied to the concrete two-write sequence
`[c1writeA, c3writeA]` (both for fingerprint "h1" at path "p"), evaluated
against the empty store: the final bitmask is the OR of the written sets. -/
theorem C1_flags_or_monotone_witness :
    flagsDone (applyUpserts [c1writeA, c3writeA] emptyFiles) ("h1") =
      some ((flagsDone emptyFiles ("h1")).getD 0 ||| orFlags [c1writeA, c3writeA]) ∧
    flagsDone (applyUpserts [c1writeA, c3writeA] emptyFiles) ("h1") = some 3 :=
  ⟨C1_flags_or_monotone.2.2.1 [c1writeA, c3writeA] emptyFiles ("h1") (by decide) (by decide),
   by decide⟩

/-- C3 counterexample: two partial updates for the same fingerprint that both
carry an `nsfw_score` do not commute: `COALESCE(excluded.nsfw_score,
files.nsfw_score)` lets the later present value overwrite the earlier one, so
the two application orders store different rows for "h1". -/
theorem C3_counterexample :
    upsert_scan_result c3writeB (upsert_scan_result c3writeA emptyFiles) ("h1") ≠
      upsert_scan_result c3writeA (upsert_scan_result c3writeB emptyFiles) ("h1") := by
  decide

/-- C3 (amended): `upsert_scan_result` is idempotent (the same partial update
applied twice leaves exactly the state after one application), an absent/null
incoming field always preserves the stored value of that field, and two
partial updates for the same fingerprint, path and timestamp commute when no
optional field is present in both of them (bitmask bits always merge by OR, so
they never conflict); a field present in both updates is won by the later
write, which is what the counterexample exhibits. -/
theorem C3_upsert_idempotent_merge :
    (∀ (u : UpsertArgs) (s : FilesState),
        upsert_scan_result u (upsert_scan_result u s) = upsert_scan_result u s) ∧
    (∀ (u : UpsertArgs) (s : FilesState) (r : FileRow), s u.file_hash = some r →
        (u.meta = none → ((upsert_scan_result u s) u.file_hash).map FileRow.meta_json =
          some r.meta_json) ∧
        (u.nsfw_score = none → ((upsert_scan_result u s) u.file_hash).map FileRow.nsfw_score =
          some r.nsfw_score) ∧
        (u.face_bbox = none → ((upsert_scan_result u s) u.file_hash).map FileRow.face_bbox_json =
          some r.face_bbox_json) ∧
        (u.vector_blob = none → ((upsert_scan_result u s) u.file_hash).map FileRow.vector_blob =
          some r.vector_blob)) ∧
    (∀ (u v : UpsertArgs) (s : FilesState),
        u.file_hash = v.file_hash → u.path = v.path → u.now = v.now →
        (u.meta = none ∨ v.meta = none) →
        (u.nsfw_score = none ∨ v.nsfw_score = none) →
        (u.face_bbox = none ∨ v.face_bbox = none) →
        (u.vector_blob = none ∨ v.vector_blob = none) →
        upsert_scan_result u (upsert_scan_result v s) =
          upsert_scan_result v (upsert_scan_result u s)) := by
  refine ⟨?_, ?_, ?_⟩
  · intro u s
    funext h
    unfold upsert_scan_result
    by_cases hh : h = u.file_hash
    · simp only [hh, if_pos rfl]
      cases hs : s u.file_hash with
      | none =>
        simp only [hs]
        cases hm : u.meta <;> cases hn : u.nsfw_score <;>
          cases hf : u.face_bbox <;> cases hv : u.vector_blob <;>
          simp [hs, Nat.lor_assoc, Nat.or_self, Option.orElse, hm, hn, hf, hv]
      | some r =>
        simp only [hs]
        cases hm : u.meta <;> cases hn : u.nsfw_score <;>
          cases hf : u.face_bbox <;> cases hv : u.vector_blob <;>
          simp [hs, Nat.lor_assoc, Nat.or_self, Option.orElse, hm, hn, hf, hv]
    · simp only [if_neg hh]
      cases hs : s h with
      | none => simp [hs]
      | some r =>
        by_cases hp : r.path = u.path
        · simp [hs, hp]
        · simp [hs, hp]
  · intro u s r hs
    unfold upsert_scan_result
    refine ⟨?_, ?_, ?_, ?_⟩ <;> intro hnone <;> simp [hs, hnone, Option.orElse]
  · intro u v s hhash hpath hnow hm hn hf hv
    funext h
    unfold upsert_scan_result
    by_cases hh : h = u.file_hash
    · have hh₂ : h = v.file_hash := by rw [hh, hhash]
      simp only [hh, hh₂, if_pos rfl, ← hhash]
      cases hs : s u.file_hash with
      | none =>
        rcases hm with h1 | h1 <;> rcases hn with h2 | h2 <;> rcases hf with h3 | h3 <;>
          rcases hv with h4 | h4 <;>
          simp [hs, hpath, hnow, h1, h2, h3, h4, FileRow.mk.injEq,
            Nat.lor_comm, Nat.lor_assoc, lor_left_comm]
      | some r =>
        rcases hm with h1 | h1 <;> rcases hn with h2 | h2 <;> rcases hf with h3 | h3 <;>
          rcases hv with h4 | h4 <;>
          simp [hs, hpath, hnow, h1, h2, h3, h4, FileRow.mk.injEq,
            Nat.lor_comm, Nat.lor_assoc, lor_left_comm]
    · have hh₂ : ¬ h = v.file_hash := by rw [← hhash]; exact hh
      simp only [if_neg hh, if_neg hh₂]
      cases hs : s h with
      | none => simp
      | some r =>
        by_cases hp : r.path = u.path
        · have hp₂ : r.path = v.path := by rw [hp, hpath]
          simp [hp, hp₂, hpath]
        · have hp₂ : ¬ r.path = v.path := by rw [← hpath]; exact hp
          simp [hp, hp₂, hpath]

/-- C3 witness: the amended theorem evaluated concretely. Idempotence at
`c3writeA` on the empty store; preservation of an absent `meta` field; and
commutation of `c1writeA` with a flags-only second write. -/
theorem C3_upsert_idempotent_merge_witness :
    (upsert_scan_result c3writeA (upsert_scan_result c3writeA emptyFiles) =
      upsert_scan_result c3writeA emptyFiles) ∧
    ((upsert_scan_result c3writeA (upsert_scan_result c1writeA emptyFiles)) ("h1")
        |>.map FileRow.meta_json) = some none :=
  ⟨C3_upsert_idempotent_merge.1 c3writeA emptyFiles,
   by
    have h := (C3_upsert_idempotent_merge.2.1 c3writeA (upsert_scan_result c1writeA emptyFiles)
      { path := "p", flags_done := 1, meta_json := none, nsfw_score := none
        face_bbox_json := none, vector_blob := none, last_scanned := 0 } (by decide)).1 (by decide)
    simpa using h⟩

/-- C4 counterexample: on two tags of equal weighted count the query returns
them in grouping (tag id) order — "zebra" (id 1) before "apple" (id 2) — not
in tag-name order; the SQL `ORDER BY weighted_count DESC LIMIT ?` names no
tie-break key, so the claim's "ties broken by tag name" fails here. -/
theorem C4_counterexample :
    get_weighted_tag_trends c4tags c4trend 100 10 = [("zebra", 3), ("apple", 3)] ∧
    weightedTrendingNameTie c4tags c4trend 100 10 = [("apple", 3), ("zebra", 3)] ∧
    get_weighted_tag_trends c4tags c4trend 100 10 ≠
      weightedTrendingNameTie c4tags c4trend 100 10 := by
  refine ⟨?_, ?_, ?_⟩ <;> decide

/-- C4 (amended): the query scores each tag as 3 times its sighting count
within the last 1 day plus 1 times its count within the last 7 days but more
than 1 day old (older sightings contribute 0 and zero-score tags are dropped
by HAVING), and returns at most `limit` tags in descending score order — with
no tie-break on tag name, equal scores staying in grouping order. The claim's
two examples hold: a tag sighted 5 times yesterday scores 15 and is returned
while a tag sighted 10 times eight days ago is dropped; a tag sighted twice
today (score 6) ranks above a tag sighted twice three days ago (score 2). -/
theorem C4_weighted_trending :
    (∀ (tagsTable : List (Nat × String)) (trend : List TrendRow) (today lim : Nat),
        List.Sorted weightGE (get_weighted_tag_trends tagsTable trend today lim)) ∧
    (∀ (tagsTable : List (Nat × String)) (trend : List TrendRow) (today lim : Nat),
        (get_weighted_tag_trends tagsTable trend today lim).length ≤ lim) ∧
    (∀ (tagsTable : List (Nat × String)) (trend : List TrendRow) (today lim : Nat),
        ∀ p ∈ get_weighted_tag_trends tagsTable trend today lim, 0 < p.2) ∧
    get_weighted_tag_trends [(1, "A"), (2, "B")]
      [⟨99, 1, 5⟩, ⟨92, 2, 10⟩] 100 50 = [("A", 15)] ∧
    get_weighted_tag_trends [(1, "C"), (2, "D")]
      [⟨100, 1, 2⟩, ⟨97, 2, 2⟩] 100 50 = [("C", 6), ("D", 2)] := by
  refine ⟨?_, ?_, ?_, by decide, by decide⟩
  · intro tagsTable trend today lim
    exact ((List.sorted_insertionSort weightGE (weightedGroups tagsTable trend today)).sublist
      (List.take_sublist lim _))
  · intro tagsTable trend today lim
    exact List.length_take_le lim _
  · intro tagsTable trend today lim p hp
    have hp₂ : p ∈ List.insertionSort weightGE (weightedGroups tagsTable trend today) :=
      List.mem_of_mem_take hp
    have hp₃ : p ∈ weightedGroups tagsTable trend today :=
      (List.perm_insertionSort weightGE _).mem_iff.mp hp₂
    unfold weightedGroups at hp₃
    obtain ⟨i, _, heq⟩ := List.mem_filterMap.mp hp₃
    cases hl : tagsTable.lookup i with
    | none =>
      rw [hl] at heq
      cases heq
    | some name =>
      rw [hl] at heq
      dsimp only at heq
      split at heq
      next hcond => cases heq; exact hcond
      next => cases heq

/-- C4 witness: the amended theorem's membership-conditioned part applied to
the concrete counterexample tables — the returned pair ("zebra", 3) has a
positive weighted count. -/
theorem C4_weighted_trending_witness :
    ("zebra", 3) ∈ get_weighted_tag_trends c4tags c4trend 100 10 ∧ 0 < 3 :=
  ⟨by decide, C4_weighted_trending.2.2.1 c4tags c4trend 100 10 ("zebra", 3) (by decide)⟩

/-- C5: evaluation of `save_tags` followed by `get_tags_for_hash` at the
failing input: the character tag "miku", passed only in the character list,
is never inserted — no tags row is created for it and the association list
holds only the general tag "smile", so the record's character list is empty
where the claim requires ["miku"]. -/
theorem C5_character_tags_dropped :
    get_tags_for_hash ("h") (save_tags ("h") ["smile"] ["miku"] emptyTags) = (["smile"], []) ∧
    findTag (save_tags ("h") ["smile"] ["miku"] emptyTags) ("miku") = none := by
  refine ⟨?_, ?_⟩ <;> decide

theorem andNot_eq_ldiff (a b : Nat) : andNot a b = Nat.ldiff a b := by
  apply Nat.eq_of_testBit_eq
  intro i
  simp only [andNot, Nat.testBit_and, Nat.testBit_xor, Nat.testBit_ldiff]
  cases ha : a.testBit i <;> cases hb : b.testBit i <;> simp

/-- C2: when the requested flag set is fully covered by the stored
`flags_done` (the needed delta is zero), `scan_image` runs no corruption
validation, checks no admission, loads no models, invokes no capability,
persists nothing, and returns the stored record's fields (metadata, risk
score defaulted to 0 when null, general tags concatenated with character
tags). -/
theorem C2_cache_hit_short_circuit (env : ScanEnv) (filePath : String)
    (modules : List String) (path hsh : String) (rec : FileRecordView)
    (htok : env.tokenValid = true) (hres : env.resolved = some path)
    (hhash : env.hashResult = some hsh) (hrec : env.record = some rec)
    (hcov : andNot (map_modules_to_flags modules) rec.flags_done = 0) :
    scan_image env filePath modules = .response
      { file_path := path, error := none, statistics := rec.meta_json
        nsfw_score := rec.nsfw_score.getD 0, tags := rec.tags ++ rec.characters }
      noEvents := by
  have hneed : neededNow env modules = 0 := by
    simp [neededNow, hrec, hcov]
  simp [scan_image, htok, hres, hhash, hrec, hneed, noEvents, capsOf]

/-- C2 witness: the theorem applied to a concrete environment whose cached
record has all five capability bits done, requesting only "tags". -/
theorem C2_cache_hit_short_circuit_witness :
    andNot (map_modules_to_flags ["tags"]) c2rec.flags_done = 0 ∧
    scan_image c2env ("x") ["tags"] = .response
      { file_path := "p", error := none, statistics := c2rec.meta_json
        nsfw_score := c2rec.nsfw_score.getD 0, tags := c2rec.tags ++ c2rec.characters }
      noEvents :=
  ⟨by decide,
   C2_cache_hit_short_circuit c2env ("x") ["tags"] ("p") ("sha") c2rec
     rfl rfl rfl rfl (by decide)⟩

/-- C6 counterexample: with the face capability requested and its model call
raising, `scan_image` does not catch the failure, records no per-capability
error in the result, and aborts the whole request — `predict_face_bboxes`
has no try/except around the model invocation, unlike `predict_nsfw` and
`predict_tags`. -/
theorem C6_counterexample :
    scan_image c6env ("p") ["face", "vector"] = .raised ("face") := by
  decide

/-- C6 (amended): failures of the basic, risk and tags capabilities are
swallowed (basic's exception is caught and logged in the route; risk and
tags catch their own exceptions inside the model manager and return
defaults), the remaining requested capabilities still execute, and no
per-capability error is recorded in the result (its error field stays none);
but a failure raised by the face capability call is not caught and aborts
the request (the vector call behaves the same way). -/
theorem C6_capability_isolation :
    (∀ (env : ScanEnv) (filePath : String) (modules : List String)
        (path hsh f : String) (v : Option String),
        env.tokenValid = true → env.resolved = some path → env.hashResult = some hsh →
        env.corrupt = false → env.facePred = Except.ok f → env.vectorPred = Except.ok v →
        ∃ r ev, scan_image env filePath modules = .response r ev ∧ r.error = none ∧
          ev.capsRun = capsOf (if neededNow env modules ≠ 0 ∧ ¬ env.canRun then 0
            else neededNow env modules)) ∧
    (∀ (env : ScanEnv) (filePath : String) (modules : List String) (path hsh : String),
        env.tokenValid = true → env.resolved = some path → env.hashResult = some hsh →
        env.corrupt = false → env.canRun = true → env.facePred = Except.error () →
        neededNow env modules &&& FLAG_FACE ≠ 0 →
        scan_image env filePath modules = .raised ("face")) := by
  constructor
  · intro env filePath modules path hsh f v htok hres hhash hcor hface hvec
    by_cases hne : neededNow env modules = 0 <;>
      by_cases hcr : env.canRun = true <;>
      by_cases hfb : neededNow env modules &&& FLAG_FACE = 0 <;>
      by_cases hvb : neededNow env modules &&& FLAG_VECTOR = 0 <;>
      simp [scan_image, htok, hres, hhash, hcor, hface, hvec, hne, hcr, hfb, hvb, Except.map] <;>
      exact ⟨_, _, ⟨rfl, rfl⟩, rfl, rfl⟩
  · intro env filePath modules path hsh htok hres hhash hcor hcanrun herr hbit
    have hne : neededNow env modules ≠ 0 := by
      intro h0
      rw [h0] at hbit
      simp at hbit
    simp [scan_image, htok, hres, hhash, hcor, hcanrun, herr, hbit, hne, Except.map]

/-- C6 witness: both parts applied concretely. In an environment where the
basic, risk and tags capability calls all fail but face and vector succeed,
the route still returns a response with no error marker and dispatches every
needed capability; and in the counterexample environment with a failing face
call the route aborts. -/
theorem C6_capability_isolation_witness :
    (∃ r ev, scan_image c6okEnv ("p") ["nsfw", "face"] = .response r ev ∧ r.error = none ∧
      ev.capsRun = capsOf (if neededNow c6okEnv ["nsfw", "face"] ≠ 0 ∧ ¬ c6okEnv.canRun then 0
        else neededNow c6okEnv ["nsfw", "face"])) ∧
    scan_image c6env ("p") ["face"] = .raised ("face") :=
  ⟨C6_capability_isolation.1 c6okEnv ("p") ["nsfw", "face"] ("p") ("sha") ("f") none
     rfl rfl rfl rfl rfl rfl,
   C6_capability_isolation.2 c6env ("p") ["face"] ("p") ("sha")
     rfl rfl rfl rfl rfl rfl (by decide)⟩

/-- C8: when the needed delta is nonzero, the content is not corrupt, and
admission (`can_run_flags`) is denied, `scan_image` clears the needed flags,
loads no models, runs no capability, persists nothing, and still returns a
successful (error-free) response built from whatever is cached. -/
theorem C8_admission_denied_degrades (env : ScanEnv) (filePath : String)
    (modules : List String) (path hsh : String)
    (htok : env.tokenValid = true) (hres : env.resolved = some path)
    (hhash : env.hashResult = some hsh) (hcor : env.corrupt = false)
    (hadm : env.canRun = false) (hneed : neededNow env modules ≠ 0) :
    scan_image env filePath modules = .response
      { file_path := path, error := none
        statistics := env.record.bind FileRecordView.meta_json
        nsfw_score := (env.record.bind FileRecordView.nsfw_score).getD 0
        tags := ((env.record.map FileRecordView.tags).getD []) ++
          ((env.record.map FileRecordView.characters).getD []) }
      { corruptChecked := true, admissionChecked := true, modelsLoaded := false
        capsRun := [], persisted := false, tagsSaved := false } := by
  simp [scan_image, htok, hres, hhash, hcor, hadm, hneed, capsOf]

/-- C8 witness: the theorem applied to a concrete environment with nothing
cached, the face capability requested, and admission denied. -/
theorem C8_admission_denied_degrades_witness :
    neededNow c8env ["face"] ≠ 0 ∧
    scan_image c8env ("p") ["face"] = .response
      { file_path := "p", error := none, statistics := none, nsfw_score := 0, tags := [] }
      { corruptChecked := true, admissionChecked := true, modelsLoaded := false
        capsRun := [], persisted := false, tagsSaved := false } :=
  ⟨by decide,
   C8_admission_denied_degrades c8env ("p") ["face"] ("p") ("sha")
     rfl rfl rfl rfl rfl (by decide)⟩

/-- C9: when known headroom is below the 15% threshold,
`_ensure_vram_capacity` evicts exactly the already-loaded non-required slots
computed in the fixed priority order (a sublist of `unload_order = [tags,
clip, face]`); and for every requested flag set and every headroom value it
never unloads a loaded slot whose capability is part of the requested set,
nor the highest-priority "nsfw" slot. -/
theorem C9_eviction_policy :
    (∀ (p : ℚ) (flags : Nat) (models : List String), p < 15 →
        ensure_vram_capacity (some p) flags models =
          unload_models (unload_priority_targets flags models) models) ∧
    (∀ (flags : Nat) (models : List String),
        (unload_priority_targets flags models).Sublist unloadOrder) ∧
    (∀ (freePct : Option ℚ) (flags : Nat) (models : List String) (n : String),
        n ∈ models → n ∈ requiredSlots flags →
        n ∈ ensure_vram_capacity freePct flags models) ∧
    (∀ (freePct : Option ℚ) (flags : Nat) (models : List String),
        "nsfw" ∈ models → "nsfw" ∈ ensure_vram_capacity freePct flags models) := by
  refine ⟨?_, ?_, ?_, ?_⟩
  · intro p flags models hp
    simp [ensure_vram_capacity, not_le.mpr hp]
  · intro flags models
    exact List.filter_sublist unloadOrder
  · intro freePct flags models n hmem hreq
    cases freePct with
    | none => exact hmem
    | some p =>
      by_cases hp : 15 ≤ p
      · simpa [ensure_vram_capacity, hp] using hmem
      · simp only [ensure_vram_capacity, if_neg hp]
        simp only [unload_models, List.mem_filter, decide_eq_true_eq]
        refine ⟨hmem, ?_⟩
        intro hcon
        have htar := hcon.1
        simp only [unload_priority_targets, List.mem_filter, decide_eq_true_eq] at htar
        exact htar.2.2 hreq
  · intro freePct flags models hmem
    cases freePct with
    | none => exact hmem
    | some p =>
      by_cases hp : 15 ≤ p
      · simpa [ensure_vram_capacity, hp] using hmem
      · simp only [ensure_vram_capacity, if_neg hp]
        simp only [unload_models, List.mem_filter, decide_eq_true_eq]
        exact ⟨hmem, fun hcon => hcon.2 rfl⟩

/-- C9 witness: the theorem applied with 10% headroom, requested flags
nsfw|tags, and slots nsfw, tags and clip loaded: eviction follows the
priority targets, and the required "tags" slot and the "nsfw" slot stay. -/
theorem C9_eviction_policy_witness :
    (10 : ℚ) < 15 ∧
    ensure_vram_capacity (some 10) (FLAG_NSFW ||| FLAG_TAGS) ["nsfw", "tags", "clip"] =
      unload_models
        (unload_priority_targets (FLAG_NSFW ||| FLAG_TAGS) ["nsfw", "tags", "clip"])
        ["nsfw", "tags", "clip"] ∧
    "tags" ∈ ensure_vram_capacity (some 10) (FLAG_NSFW ||| FLAG_TAGS)
      ["nsfw", "tags", "clip"] ∧
    "nsfw" ∈ ensure_vram_capacity (some 10) (FLAG_NSFW ||| FLAG_TAGS)
      ["nsfw", "tags", "clip"] :=
  ⟨by decide,
   C9_eviction_policy.1 10 (FLAG_NSFW ||| FLAG_TAGS) ["nsfw", "tags", "clip"] (by decide),
   C9_eviction_policy.2.2.1 (some 10) (FLAG_NSFW ||| FLAG_TAGS) ["nsfw", "tags", "clip"]
     ("tags") (by decide) (by decide),
   C9_eviction_policy.2.2.2 (some 10) (FLAG_NSFW ||| FLAG_TAGS) ["nsfw", "tags", "clip"]
     (by decide)⟩

theorem scanBatchLoop_processed (frames : List Frame) :
    ∀ (idxs : List Nat) (m : ℚ) (acc : List String) (pre : List Nat),
      ∃ k, (scanBatchLoop frames idxs m acc pre).2.2 = pre ++ idxs.take k := by
  intro idxs
  induction idxs with
  | nil =>
    intro m acc pre
    exact ⟨0, by simp [scanBatchLoop]⟩
  | cons i rest ih =>
    intro m acc pre
    by_cases hsat : 1 ≤ max m (frames.getD i { risk := 0, tags := [] }).risk
    · refine ⟨1, ?_⟩
      simp only [scanBatchLoop]
      rw [if_pos hsat]
      simp
    · obtain ⟨k, hk⟩ := ih (max m (frames.getD i { risk := 0, tags := [] }).risk)
        (acc ++ (frames.getD i { risk := 0, tags := [] }).tags) (pre ++ [i])
      refine ⟨k + 1, ?_⟩
      simp only [scanBatchLoop, if_neg hsat]
      rw [hk, List.take_succ_cons, List.append_assoc]
      rfl

/-- C7: `scan_batch` processes sampled frames in ascending index order
(the sampled index list is sorted and the processed indices are a prefix of
it), it keeps a running maximum risk and stops sampling as soon as that
maximum reaches 1.0, and the returned frameCount is always the total number
of extracted frames rather than the number sampled. On the claim's example —
40 extracted frames whose sampled risks start 0.1, 0.2, 1.0, 0.9 — it
returns risk 1.0 and frameCount 40 having processed exactly the first three
sampled indices. -/
theorem C7_scan_batch :
    (∀ (frames : List Frame) (mime : String),
        (scan_batch frames mime).1.frameCount = frames.length) ∧
    (∀ (total step : Nat), List.Sorted (· ≤ ·) (sample_indices total step)) ∧
    (∀ (frames : List Frame) (mime : String), ∃ k,
        (scan_batch frames mime).2 =
          (sample_indices frames.length
            (if hasSub ("video").data mime.data && ! hasSub ("gif").data mime.data
             then VIDEO_STEP else GIF_STEP)).take k) ∧
    (scan_batch c7frames ("")).1.risk = 1 ∧
    (scan_batch c7frames ("")).2 = [0, 5, 10] ∧
    (scan_batch c7frames ("")).1.frameCount = 40 := by
  refine ⟨?_, ?_, ?_, by decide, by decide, by decide⟩
  · intro frames mime
    by_cases h : frames.length = 0 <;> simp [scan_batch, h]
  · intro total step
    unfold sample_indices
    split
    · simp
    · exact List.sorted_insertionSort (· ≤ ·) _
  · intro frames mime
    by_cases h : frames.length = 0
    · exact ⟨0, by simp [scan_batch, h, sample_indices]⟩
    · obtain ⟨k, hk⟩ := scanBatchLoop_processed frames
        (sample_indices frames.length
          (if hasSub ("video").data mime.data && ! hasSub ("gif").data mime.data
           then VIDEO_STEP else GIF_STEP)) 0 [] []
      exact ⟨k, by simpa [scan_batch, h] using hk⟩

end SupervisorTagScan
